import Mathlib

/-! # AdamBalkSampleCode: the typed message bus

A shallow embedding of `Message.h`, `MessageSystem.h` and `MessageSystem.cpp`
and a verification of the properties stated about them.

Conventions of the embedding.

* A call of a C++ function that can abort or has no defined result returns an
  `Outcome`: `ok v` when the call returns `v`, `assertFailed` when an `assert`
  fires (the build keeps assertions, `NDEBUG` is not defined), `undefined`
  when the C++ standard gives the call no defined behaviour.
* `float` values are only stored and copied by the code, never computed with;
  a `float` is represented by its bit pattern, a natural number.  `int` values
  are integers, `char` values are their character codes, a `void*` is an address.
* The union `MessageDataUnion` is represented by its active member.  The
  nameless struct `x, y, z, w` records for each component whether it has been
  written.
* `std::mutex` is not modelled: every operation is run to completion, one at a
  time.  `std::cout` is carried in the state.
* `high_resolution_clock::time_point` is a count of nanoseconds; a `double`
  delay is represented by the rational number it denotes.
-/

namespace MessageBus

/-! ## Outcomes of calls -/

/-- Result of a call that may abort or be undefined. -/
inductive Outcome (α : Type) where
  /-- The call returns the value. -/
  | ok (value : α)
  /-- The call stops at a failed `assert`. -/
  | assertFailed
  /-- The call has undefined behaviour. -/
  | undefined
  deriving DecidableEq, Repr

/-- An outcome is an explicit failure when the call stops with a reported
error; in this code base the only such mechanism is `assert`. -/
def Outcome.isExplicitFailure {α : Type} : Outcome α → Bool
  | .assertFailed => true
  | _ => false

/-- An outcome is a success when the call returns a value. -/
def Outcome.isOk {α : Type} : Outcome α → Bool
  | .ok _ => true
  | _ => false

/-! ## Message.h -/

/-- The type `std::string MessageName`. -/
abbrev MessageName := String

/-- A C++ `float`, by its bit pattern. -/
abbrev CFloat := Nat

/-- Modelled from the spec: `Vector.h` is not among the sources; a `Vector2f`
is a value with the float components `x, y`. -/
structure Vector2f where
  x : CFloat
  y : CFloat
  deriving DecidableEq, Repr

/-- Modelled from the spec: `Vector.h` is not among the sources; a `Vector3f`
is a value with the float components `x, y, z`. -/
structure Vector3f where
  x : CFloat
  y : CFloat
  z : CFloat
  deriving DecidableEq, Repr

/-- Modelled from the spec: `Vector.h` is not among the sources; a `Vector4f`
is a value with the float components `x, y, z, w`. -/
structure Vector4f where
  x : CFloat
  y : CFloat
  z : CFloat
  w : CFloat
  deriving DecidableEq, Repr

/-- The union `MessageDataUnion`, by its active member.  `indeterminate` is the
union before any member is written; `vec` is the nameless struct, each
component `none` until it is written. -/
inductive MessageDataUnion where
  | indeterminate
  | intValue (v : Int)
  | floatValue (v : CFloat)
  | charValue (v : Nat)
  | boolValue (v : Bool)
  | objectValue (v : Nat)
  | vec (x y z w : Option CFloat)
  deriving DecidableEq, Repr

namespace MessageDataUnion

/-- Assignment `mData.x = v`. -/
def setX (u : MessageDataUnion) (v : CFloat) : MessageDataUnion :=
  match u with
  | vec _ y z w => vec (some v) y z w
  | _ => vec (some v) none none none

/-- Assignment `mData.y = v`. -/
def setY (u : MessageDataUnion) (v : CFloat) : MessageDataUnion :=
  match u with
  | vec x _ z w => vec x (some v) z w
  | _ => vec none (some v) none none

/-- Assignment `mData.z = v`. -/
def setZ (u : MessageDataUnion) (v : CFloat) : MessageDataUnion :=
  match u with
  | vec x y _ w => vec x y (some v) w
  | _ => vec none none (some v) none

/-- Assignment `mData.w = v`. -/
def setW (u : MessageDataUnion) (v : CFloat) : MessageDataUnion :=
  match u with
  | vec x y z _ => vec x y z (some v)
  | _ => vec none none none (some v)

/-- Read of `mData.intValue`; `none` when that member holds no value. -/
def getInt : MessageDataUnion → Option Int
  | intValue v => some v
  | _ => none

/-- Read of `mData.floatValue`. -/
def getFloat : MessageDataUnion → Option CFloat
  | floatValue v => some v
  | _ => none

/-- Read of `mData.charValue`. -/
def getChar : MessageDataUnion → Option Nat
  | charValue v => some v
  | _ => none

/-- Read of `mData.boolValue`. -/
def getBool : MessageDataUnion → Option Bool
  | boolValue v => some v
  | _ => none

/-- Read of `mData.objectValue`. -/
def getObject : MessageDataUnion → Option Nat
  | objectValue v => some v
  | _ => none

/-- Read of `mData.x`. -/
def getX : MessageDataUnion → Option CFloat
  | vec x _ _ _ => x
  | _ => none

/-- Read of `mData.y`. -/
def getY : MessageDataUnion → Option CFloat
  | vec _ y _ _ => y
  | _ => none

/-- Read of `mData.z`. -/
def getZ : MessageDataUnion → Option CFloat
  | vec _ _ z _ => z
  | _ => none

/-- Read of `mData.w`. -/
def getW : MessageDataUnion → Option CFloat
  | vec _ _ _ w => w
  | _ => none

end MessageDataUnion

/-- The enumeration `MessageType`. -/
inductive MessageType where
  | MESSAGE_TYPE_ERR
  | MESSAGE_TYPE_INT
  | MESSAGE_TYPE_FLOAT
  | MESSAGE_TYPE_CHAR
  | MESSAGE_TYPE_BOOL
  | MESSAGE_TYPE_OBJECT
  | MESSAGE_TYPE_VEC2
  | MESSAGE_TYPE_VEC3
  | MESSAGE_TYPE_VEC4
  deriving DecidableEq, Repr

/-- The class `MessageData`: a tag and the union. -/
structure MessageData where
  mType : MessageType
  mData : MessageDataUnion
  deriving DecidableEq, Repr

/-- A read of a union member inside a getter: the value when the member holds
one, undefined behaviour otherwise. -/
def readMember {α : Type} : Option α → Outcome α
  | some v => .ok v
  | none => .undefined

namespace MessageData

/-- Constructor `MessageData()`. -/
def default : MessageData :=
  { mType := .MESSAGE_TYPE_ERR, mData := .indeterminate }

/-- Constructor `MessageData(int data)`. -/
def ofInt (data : Int) : MessageData :=
  { mType := .MESSAGE_TYPE_INT, mData := .intValue data }

/-- Constructor `MessageData(float data)`. -/
def ofFloat (data : CFloat) : MessageData :=
  { mType := .MESSAGE_TYPE_FLOAT, mData := .floatValue data }

/-- Constructor `MessageData(char data)`. -/
def ofChar (data : Nat) : MessageData :=
  { mType := .MESSAGE_TYPE_CHAR, mData := .charValue data }

/-- Constructor `MessageData(bool data)`. -/
def ofBool (data : Bool) : MessageData :=
  { mType := .MESSAGE_TYPE_BOOL, mData := .boolValue data }

/-- Constructor `MessageData(void* data)`. -/
def ofObject (data : Nat) : MessageData :=
  { mType := .MESSAGE_TYPE_OBJECT, mData := .objectValue data }

/-- Constructor `MessageData(Vector2f data)`. -/
def ofVector2f (data : Vector2f) : MessageData :=
  { mType := .MESSAGE_TYPE_VEC2
    mData := (MessageDataUnion.indeterminate.setX data.x).setY data.y }

/-- Constructor `MessageData(Vector3f data)`. -/
def ofVector3f (data : Vector3f) : MessageData :=
  { mType := .MESSAGE_TYPE_VEC3
    mData := ((MessageDataUnion.indeterminate.setX data.x).setY data.y).setZ data.z }

/-- Constructor `MessageData(Vector4f data)`. -/
def ofVector4f (data : Vector4f) : MessageData :=
  { mType := .MESSAGE_TYPE_VEC4
    mData :=
      (((MessageDataUnion.indeterminate.setX data.x).setY data.y).setZ data.z).setW data.w }

/-- Member `IsValid`. -/
def IsValid (d : MessageData) : Bool := d.mType != .MESSAGE_TYPE_ERR
/-- Member `IsInt`. -/
def IsInt (d : MessageData) : Bool := d.mType == .MESSAGE_TYPE_INT
/-- Member `IsFloat`. -/
def IsFloat (d : MessageData) : Bool := d.mType == .MESSAGE_TYPE_FLOAT
/-- Member `IsChar`. -/
def IsChar (d : MessageData) : Bool := d.mType == .MESSAGE_TYPE_CHAR
/-- Member `IsBool`. -/
def IsBool (d : MessageData) : Bool := d.mType == .MESSAGE_TYPE_BOOL
/-- Member `IsObject`. -/
def IsObject (d : MessageData) : Bool := d.mType == .MESSAGE_TYPE_OBJECT
/-- Member `IsVector2f`. -/
def IsVector2f (d : MessageData) : Bool := d.mType == .MESSAGE_TYPE_VEC2
/-- Member `IsVector3f`. -/
def IsVector3f (d : MessageData) : Bool := d.mType == .MESSAGE_TYPE_VEC3
/-- Member `IsVector4f`. -/
def IsVector4f (d : MessageData) : Bool := d.mType == .MESSAGE_TYPE_VEC4

/-- Member `GetInt`: `assert(mType == MESSAGE_TYPE_INT)`, then `mData.intValue`. -/
def GetInt (d : MessageData) : Outcome Int :=
  if d.mType = .MESSAGE_TYPE_INT then readMember d.mData.getInt else .assertFailed

/-- Member `GetFloat`: `assert(mType == MESSAGE_TYPE_FLOAT)`, then `mData.floatValue`. -/
def GetFloat (d : MessageData) : Outcome CFloat :=
  if d.mType = .MESSAGE_TYPE_FLOAT then readMember d.mData.getFloat else .assertFailed

/-- Member `GetChar`: `assert(mType == MESSAGE_TYPE_CHAR)`, then `mData.charValue`. -/
def GetChar (d : MessageData) : Outcome Nat :=
  if d.mType = .MESSAGE_TYPE_CHAR then readMember d.mData.getChar else .assertFailed

/-- Member `GetBool`: `assert(mType == MESSAGE_TYPE_BOOL)`, then `mData.boolValue`. -/
def GetBool (d : MessageData) : Outcome Bool :=
  if d.mType = .MESSAGE_TYPE_BOOL then readMember d.mData.getBool else .assertFailed

/-- Member `GetObject`: `assert(mType == MESSAGE_TYPE_OBJECT)`, then `mData.objectValue`. -/
def GetObject (d : MessageData) : Outcome Nat :=
  if d.mType = .MESSAGE_TYPE_OBJECT then readMember d.mData.getObject else .assertFailed

/-- Member `GetVector2f`: `assert(mType == MESSAGE_TYPE_VEC2)`, then
`{ mData.x, mData.y }`. -/
def GetVector2f (d : MessageData) : Outcome Vector2f :=
  if d.mType = .MESSAGE_TYPE_VEC2 then
    match d.mData.getX, d.mData.getY with
    | some x, some y => .ok { x := x, y := y }
    | _, _ => .undefined
  else .assertFailed

/-- Member `GetVector3f`: `assert(mType == MESSAGE_TYPE_VEC2)` as the source has
it, then `{ mData.x, mData.y, mData.z }`. -/
def GetVector3f (d : MessageData) : Outcome Vector3f :=
  if d.mType = .MESSAGE_TYPE_VEC2 then
    match d.mData.getX, d.mData.getY, d.mData.getZ with
    | some x, some y, some z => .ok { x := x, y := y, z := z }
    | _, _, _ => .undefined
  else .assertFailed

/-- Member `GetVector4f`: `assert(mType == MESSAGE_TYPE_VEC2)` as the source has
it, then `{ mData.x, mData.y, mData.z, mData.w }`. -/
def GetVector4f (d : MessageData) : Outcome Vector4f :=
  if d.mType = .MESSAGE_TYPE_VEC2 then
    match d.mData.getX, d.mData.getY, d.mData.getZ, d.mData.getW with
    | some x, some y, some z, some w => .ok { x := x, y := y, z := z, w := w }
    | _, _, _, _ => .undefined
  else .assertFailed

/-- Member `GetMessageType`. -/
def GetMessageType (d : MessageData) : MessageType := d.mType

end MessageData

/-- The class `MessageObject`. -/
structure MessageObject where
  mName : MessageName
  mData : MessageData
  isDelivered : Bool
  deriving DecidableEq, Repr

namespace MessageObject

/-- Constructor `MessageObject(MessageName name, const MessageData& data)`. -/
def new (name : MessageName) (data : MessageData) : MessageObject :=
  { mName := name, mData := data, isDelivered := false }

/-- Member `GetName`. -/
def GetName (m : MessageObject) : MessageName := m.mName

/-- Member `IsDelivered`. -/
def IsDelivered (m : MessageObject) : Bool := m.isDelivered

/-- Member `SetDeliveryStatus`. -/
def SetDeliveryStatus (m : MessageObject) (deliveryStatus : Bool) : MessageObject :=
  { m with isDelivered := deliveryStatus }

end MessageObject

/-! ## MessageSystem.h and MessageSystem.cpp -/

/-- The type `std::deque<MessageObject> MessageList`: the front is the head of
the list, `push_back` appends at the end. -/
abbrev MessageList := List MessageObject

/-- A reading of `high_resolution_clock::now()`, in nanoseconds. -/
abbrev time_point := Int

/-- The struct `WaitingMessage`. -/
structure WaitingMessage where
  msg : MessageObject
  timeStamp : time_point
  delayTime : ℚ
  deriving DecidableEq

/-- The data members of the class `MessageSystem` (the mutex is left out) and
the stream `std::cout` the class writes to.  `MessageMap` is the
`std::unordered_map`: `none` at a key that is not in the map. -/
structure MessageSystem where
  MessageMap : String → Option MessageList
  ValidMessageTypes : List String
  WaitingList : List WaitingMessage
  cout : List String

namespace MessageSystem

/-- The object behind `Instance()` when it is first used: all containers are
empty, nothing has been printed. -/
def Instance : MessageSystem :=
  { MessageMap := fun _ => none, ValidMessageTypes := [], WaitingList := [], cout := [] }

/-- The queue the expression `MessageMap[key]` refers to: the stored queue, or
the empty queue that `operator[]` inserts for a key not in the map. -/
def queueAt (s : MessageSystem) (key : String) : MessageList :=
  (s.MessageMap key).getD []

/-- The state after the queue `MessageMap[key]` has been given the contents
`q`; the key is in the map from then on. -/
def setQueue (s : MessageSystem) (key : String) (q : MessageList) : MessageSystem :=
  { s with MessageMap := Function.update s.MessageMap key (some q) }

/-- The template `Send(T dataToSend, std::string msgType)`.  The argument
`dataToSend` is given as the payload `MessageData msgData(dataToSend)` that the
body constructs from it. -/
def Send (s : MessageSystem) (dataToSend : MessageData) (msgType : String) : MessageSystem :=
  if msgType ∉ s.ValidMessageTypes then
    { s with cout := s.cout ++ [msgType ++ " is not a valid message type", "Message not sent"] }
  else
    let msgData := dataToSend
    let msg := MessageObject.new msgType msgData
    s.setQueue msg.GetName (s.queueAt msg.GetName ++ [msg])

/-- The template `DelayedSend(T dataToSend, std::string msgType, double delayTime)`;
`now` is the reading of `high_resolution_clock::now()` the body takes. -/
def DelayedSend (s : MessageSystem) (dataToSend : MessageData) (msgType : String)
    (delayTime : ℚ) (now : time_point) : MessageSystem :=
  if msgType ∉ s.ValidMessageTypes then
    { s with cout := s.cout ++ [msgType ++ " is not a valid message type", "Message not sent"] }
  else
    let msgData := dataToSend
    let msg := MessageObject.new msgType msgData
    let delayedMsg : WaitingMessage := { msg := msg, timeStamp := now, delayTime := delayTime }
    { s with WaitingList := s.WaitingList ++ [delayedMsg] }

/-- Member `Receive`: `front()` of `MessageMap[msgType]`, undefined on an empty
queue, then `pop_front()` and `SetDeliveryStatus(true)`. -/
def Receive (s : MessageSystem) (msgType : String) : Outcome (MessageObject × MessageSystem) :=
  match s.queueAt msgType with
  | [] => .undefined
  | front :: rest =>
    let msg := front
    let s1 := s.setQueue msgType rest
    let msg := msg.SetDeliveryStatus true
    .ok (msg, s1)

/-- Member `IsMessageListEmpty`: the answer, and the state in which
`MessageMap[msgType]` exists. -/
def IsMessageListEmpty (s : MessageSystem) (msgType : String) : Bool × MessageSystem :=
  ((s.queueAt msgType).isEmpty, s.setQueue msgType (s.queueAt msgType))

/-- Member `AddValidMessageType`. -/
def AddValidMessageType (s : MessageSystem) (newMsgType : String) : MessageSystem :=
  { s with ValidMessageTypes := s.ValidMessageTypes ++ [newMsgType] }

/-- The private member `Send(MessageObject msg)`. -/
def SendObject (s : MessageSystem) (msg : MessageObject) : MessageSystem :=
  s.setQueue msg.GetName (s.queueAt msg.GetName ++ [msg])

/-- The value `duration_cast<milliseconds>(now - timeStamp).count()`: the
elapsed nanoseconds divided by one million, rounded toward zero. -/
def elapsedMilliseconds (now timeStamp : time_point) : Int :=
  Int.tdiv (now - timeStamp) 1000000

/-- The condition of the `if` in `Update`: the elapsed whole milliseconds,
converted to `double`, are at least `delayTime`. -/
def isDue (now : time_point) (w : WaitingMessage) : Bool :=
  decide (w.delayTime ≤ ((elapsedMilliseconds now w.timeStamp : Int) : ℚ))

/-- The loop of `Update` from the index `i` on.  `clock i` is the reading of
`high_resolution_clock::now()` taken in the iteration with index `i`. -/
def UpdateLoop (clock : Nat → time_point) (i : Nat) (s : MessageSystem) : MessageSystem :=
  if h : i < s.WaitingList.length then
    if isDue (clock i) (s.WaitingList.get ⟨i, h⟩) then
      let s1 := s.SendObject (s.WaitingList.get ⟨i, h⟩).msg
      let s2 := { s1 with WaitingList := s1.WaitingList.eraseIdx i }
      UpdateLoop clock (i + 1) s2
    else
      UpdateLoop clock (i + 1) s
  else
    s
termination_by s.WaitingList.length - i
decreasing_by
  · simp only [SendObject, setQueue, List.length_eraseIdx]
    split <;> omega
  · omega

/-- Member `Update`. -/
def Update (s : MessageSystem) (clock : Nat → time_point) : MessageSystem :=
  UpdateLoop clock 0 s

/-- One call of `Update` during which every reading of the clock is `now`. -/
def Tick (s : MessageSystem) (now : time_point) : MessageSystem :=
  Update s (fun _ => now)

/-! ## Sequences of calls -/

/-- The calls `Send(v1, name); ...; Send(vn, name)`, in that order. -/
def sendAll (s : MessageSystem) (name : String) (vs : List MessageData) : MessageSystem :=
  vs.foldl (fun acc v => acc.Send v name) s

/-- The same call `Receive(name)` made `n` times in a row: the messages
returned, in the order of the calls, and the state after the last call.  The
sequence stops at the first call that does not return. -/
def receiveN (s : MessageSystem) (name : String) : Nat → Outcome (List MessageObject × MessageSystem)
  | 0 => .ok ([], s)
  | n + 1 =>
    match s.Receive name with
    | .ok (m, s1) =>
      match receiveN s1 name n with
      | .ok (ms, s2) => .ok (m :: ms, s2)
      | .assertFailed => .assertFailed
      | .undefined => .undefined
    | .assertFailed => .assertFailed
    | .undefined => .undefined

/-- Every message the router holds, in a queue or in the waiting list, reports
that it has not been delivered. -/
def AllUndelivered (s : MessageSystem) : Prop :=
  (∀ key q, s.MessageMap key = some q → ∀ m ∈ q, m.IsDelivered = false) ∧
    ∀ w ∈ s.WaitingList, w.msg.IsDelivered = false

/-- The states the router can be in: the state of `Instance()` at first use,
and every state a public member function returns from. -/
inductive Reachable : MessageSystem → Prop where
  | instance_ : Reachable Instance
  | addValidMessageType {s : MessageSystem} (newMsgType : String) :
      Reachable s → Reachable (s.AddValidMessageType newMsgType)
  | send {s : MessageSystem} (dataToSend : MessageData) (msgType : String) :
      Reachable s → Reachable (s.Send dataToSend msgType)
  | delayedSend {s : MessageSystem} (dataToSend : MessageData) (msgType : String)
      (delayTime : ℚ) (now : time_point) :
      Reachable s → Reachable (s.DelayedSend dataToSend msgType delayTime now)
  | receive {s s1 : MessageSystem} (msgType : String) (msg : MessageObject) :
      Reachable s → s.Receive msgType = .ok (msg, s1) → Reachable s1
  | isMessageListEmpty {s : MessageSystem} (msgType : String) :
      Reachable s → Reachable (s.IsMessageListEmpty msgType).2
  | update {s : MessageSystem} (clock : Nat → time_point) :
      Reachable s → Reachable (s.Update clock)

/-- The calls `Send(m1); ...; Send(mn)` of the private member, in that order. -/
def sendObjects (s : MessageSystem) (msgs : List MessageObject) : MessageSystem :=
  msgs.foldl SendObject s

/-- One pass of the loop of `Update` over the entries from the current index
on, when every reading of the clock is `now`, in closed form: the entries the
pass sends, in the order it sends them, and the entries it leaves, in their
order.  The entry behind a sent entry moves to the index of the sent one and
the pass goes on behind it.  `UpdateLoop_eq_scanWaiting` proves that the loop
computes this. -/
def scanWaiting (now : time_point) : List WaitingMessage → List WaitingMessage × List WaitingMessage
  | [] => ([], [])
  | [w] => if isDue now w then ([w], []) else ([], [w])
  | w :: r :: rest =>
    if isDue now w then (w :: (scanWaiting now rest).1, r :: (scanWaiting now rest).2)
    else ((scanWaiting now (r :: rest)).1, w :: (scanWaiting now (r :: rest)).2)

/-- The messages of a list that carry the name `name`, in their order. -/
def named (name : String) (msgs : List MessageObject) : List MessageObject :=
  msgs.filter (fun m => decide (m.GetName = name))

end MessageSystem

/-! ## Basic facts about the queue map -/

namespace MessageSystem

@[simp] theorem queueAt_setQueue_same (s : MessageSystem) (key : String) (q : MessageList) :
    (s.setQueue key q).queueAt key = q := by
  simp [queueAt, setQueue]

@[simp] theorem queueAt_setQueue_other (s : MessageSystem) {key other : String} (q : MessageList)
    (h : other ≠ key) : (s.setQueue key q).queueAt other = s.queueAt other := by
  simp [queueAt, setQueue, Function.update_noteq h]

@[simp] theorem setQueue_ValidMessageTypes (s : MessageSystem) (key : String) (q : MessageList) :
    (s.setQueue key q).ValidMessageTypes = s.ValidMessageTypes := rfl

@[simp] theorem setQueue_WaitingList (s : MessageSystem) (key : String) (q : MessageList) :
    (s.setQueue key q).WaitingList = s.WaitingList := rfl

@[simp] theorem setQueue_cout (s : MessageSystem) (key : String) (q : MessageList) :
    (s.setQueue key q).cout = s.cout := rfl

theorem Send_of_valid (s : MessageSystem) (v : MessageData) {name : String}
    (h : name ∈ s.ValidMessageTypes) :
    s.Send v name = s.setQueue name (s.queueAt name ++ [MessageObject.new name v]) := by
  simp [Send, h, MessageObject.GetName, MessageObject.new]

theorem Send_of_not_valid (s : MessageSystem) (v : MessageData) {name : String}
    (h : name ∉ s.ValidMessageTypes) :
    s.Send v name =
      { s with cout := s.cout ++ [name ++ " is not a valid message type", "Message not sent"] } := by
  simp [Send, h]

@[simp] theorem Send_ValidMessageTypes (s : MessageSystem) (v : MessageData) (name : String) :
    (s.Send v name).ValidMessageTypes = s.ValidMessageTypes := by
  unfold Send; split <;> rfl

@[simp] theorem Send_WaitingList (s : MessageSystem) (v : MessageData) (name : String) :
    (s.Send v name).WaitingList = s.WaitingList := by
  unfold Send; split <;> rfl

theorem sendAll_ValidMessageTypes (s : MessageSystem) (name : String) (vs : List MessageData) :
    (sendAll s name vs).ValidMessageTypes = s.ValidMessageTypes := by
  induction vs generalizing s with
  | nil => rfl
  | cons v vs ih => simp [sendAll, List.foldl_cons] at ih ⊢; rw [ih]; simp

theorem queueAt_sendAll (s : MessageSystem) {name : String} (vs : List MessageData)
    (h : name ∈ s.ValidMessageTypes) :
    (sendAll s name vs).queueAt name = s.queueAt name ++ vs.map (MessageObject.new name) := by
  induction vs generalizing s with
  | nil => simp [sendAll]
  | cons v vs ih =>
    have hv : name ∈ (s.Send v name).ValidMessageTypes := by simpa using h
    have := ih (s.Send v name) hv
    simp only [sendAll, List.foldl_cons] at this ⊢
    rw [this, Send_of_valid s v h]
    simp

theorem Receive_of_cons (s : MessageSystem) (name : String) (front : MessageObject)
    (rest : MessageList) (h : s.queueAt name = front :: rest) :
    s.Receive name = .ok (front.SetDeliveryStatus true, s.setQueue name rest) := by
  simp [Receive, h]

theorem Receive_of_nil (s : MessageSystem) {name : String} (h : s.queueAt name = []) :
    s.Receive name = .undefined := by
  simp [Receive, h]

theorem receiveN_of_append (name : String) (q : MessageList) :
    ∀ (s : MessageSystem) (r : MessageList), s.queueAt name = q ++ r →
      ∃ s1, receiveN s name q.length = .ok (q.map (fun m => m.SetDeliveryStatus true), s1) ∧
        s1.queueAt name = r := by
  induction q with
  | nil => intro s r h; exact ⟨s, rfl, by simpa using h⟩
  | cons m q ih =>
    intro s r h
    have hrec := Receive_of_cons s name m (q ++ r) (by simpa using h)
    obtain ⟨s1, h1, h2⟩ := ih (s.setQueue name (q ++ r)) r (by simp)
    exact ⟨s1, by simp [receiveN, hrec, h1], h2⟩

end MessageSystem

/-! ## Immediate delivery -/

open MessageSystem

/-- C1 (FIFO order): for a registered name whose queue is empty, sending the
payloads `v1..vn` in that order and then receiving `n` times returns `n`
messages, all named `name`, whose payloads are `v1..vn` in that order, and
leaves the queue for `name` empty. -/
theorem fifo_order (s : MessageSystem) (name : String) (vs : List MessageData)
    (hreg : name ∈ s.ValidMessageTypes) (hempty : s.queueAt name = []) :
    ∃ msgs s1, receiveN (sendAll s name vs) name vs.length = .ok (msgs, s1) ∧
      msgs.length = vs.length ∧
      (∀ m ∈ msgs, m.GetName = name) ∧
      msgs.map (fun m => m.mData) = vs ∧
      s1.queueAt name = [] := by
  have hq := queueAt_sendAll s vs hreg
  rw [hempty, List.nil_append] at hq
  obtain ⟨s1, h1, h2⟩ :=
    receiveN_of_append name (vs.map (MessageObject.new name)) (sendAll s name vs) []
      (by simpa using hq)
  rw [List.length_map] at h1
  refine ⟨_, s1, h1, by simp, ?_, ?_, h2⟩
  · intro m hm
    simp only [List.map_map, List.mem_map, Function.comp] at hm
    obtain ⟨v, _, rfl⟩ := hm
    rfl
  · rw [List.map_map, List.map_map]
    exact (List.map_congr_left (fun v _ => rfl)).trans (List.map_id vs)

/-- Witness of `fifo_order`: three integers sent under the registered name `a`. -/
theorem fifo_order_witness :
    "a" ∈ (Instance.AddValidMessageType "a").ValidMessageTypes ∧
    (Instance.AddValidMessageType "a").queueAt "a" = [] ∧
    ∃ msgs s1,
      receiveN (sendAll (Instance.AddValidMessageType "a") "a"
        [MessageData.ofInt 1, MessageData.ofInt 2, MessageData.ofInt 3]) "a"
        [MessageData.ofInt 1, MessageData.ofInt 2, MessageData.ofInt 3].length = .ok (msgs, s1) ∧
      msgs.length = [MessageData.ofInt 1, MessageData.ofInt 2, MessageData.ofInt 3].length ∧
      (∀ m ∈ msgs, m.GetName = "a") ∧
      msgs.map (fun m => m.mData) = [MessageData.ofInt 1, MessageData.ofInt 2, MessageData.ofInt 3] ∧
      s1.queueAt "a" = [] :=
  ⟨by decide, by decide, fifo_order _ "a" _ (by decide) (by decide)⟩

/-- C2 (type isolation): for distinct names `X` and `Y`, `Send` under `X`
leaves the queue for `Y` as it was, and leaves the registry and the waiting
list as they were. -/
theorem send_type_isolation (s : MessageSystem) (X Y : String) (v : MessageData) (hXY : X ≠ Y) :
    (s.Send v X).MessageMap Y = s.MessageMap Y ∧
      (s.Send v X).queueAt Y = s.queueAt Y ∧
      (s.Send v X).ValidMessageTypes = s.ValidMessageTypes ∧
      (s.Send v X).WaitingList = s.WaitingList := by
  have hm : (s.Send v X).MessageMap Y = s.MessageMap Y := by
    unfold Send
    split
    · rfl
    · simp [setQueue, MessageObject.GetName, MessageObject.new, Function.update_noteq hXY.symm]
  exact ⟨hm, by simp [queueAt, hm], by simp, by simp⟩

/-- Witness of `send_type_isolation`: a send under `x` next to a queue for `y`. -/
theorem send_type_isolation_witness :
    "x" ≠ "y" ∧
    ((((Instance.AddValidMessageType "x").AddValidMessageType "y").Send (MessageData.ofInt 7) "y").Send
        (MessageData.ofBool true) "x").queueAt "y" =
      (((Instance.AddValidMessageType "x").AddValidMessageType "y").Send
        (MessageData.ofInt 7) "y").queueAt "y" :=
  ⟨by decide, (send_type_isolation _ "x" "y" _ (by decide)).2.1⟩

/-- C3 (unregistered drop): for a name that is not in the registry, `Send` and
`DelayedSend` return, leave the queue map, the registry and the waiting list as
they were, and only print the two diagnostic lines. -/
theorem unregistered_drop (s : MessageSystem) (name : String) (v : MessageData) (delay : ℚ)
    (now : time_point) (h : name ∉ s.ValidMessageTypes) :
    (s.Send v name).MessageMap = s.MessageMap ∧
      (s.Send v name).WaitingList = s.WaitingList ∧
      (s.Send v name).ValidMessageTypes = s.ValidMessageTypes ∧
      (s.Send v name).cout =
        s.cout ++ [name ++ " is not a valid message type", "Message not sent"] ∧
      (s.DelayedSend v name delay now).MessageMap = s.MessageMap ∧
      (s.DelayedSend v name delay now).WaitingList = s.WaitingList ∧
      (s.DelayedSend v name delay now).ValidMessageTypes = s.ValidMessageTypes ∧
      (s.DelayedSend v name delay now).cout =
        s.cout ++ [name ++ " is not a valid message type", "Message not sent"] := by
  simp [Send, DelayedSend, h]

/-- Witness of `unregistered_drop`: the name `b` when only `a` is registered. -/
theorem unregistered_drop_witness :
    "b" ∉ ((Instance.AddValidMessageType "a").Send (MessageData.ofInt 1) "a").ValidMessageTypes ∧
    ((((Instance.AddValidMessageType "a").Send (MessageData.ofInt 1) "a").Send
        (MessageData.ofInt 2) "b").queueAt "a" = [MessageObject.new "a" (MessageData.ofInt 1)] ∧
      (((Instance.AddValidMessageType "a").Send (MessageData.ofInt 1) "a").Send
        (MessageData.ofInt 2) "b").queueAt "b" = [] ∧
      (((Instance.AddValidMessageType "a").Send (MessageData.ofInt 1) "a").DelayedSend
        (MessageData.ofInt 2) "b" 50 0).WaitingList = []) :=
  ⟨by decide,
    by
      have h := unregistered_drop ((Instance.AddValidMessageType "a").Send (MessageData.ofInt 1) "a")
        "b" (MessageData.ofInt 2) 50 0 (by decide)
      refine ⟨?_, ?_, ?_⟩
      · rw [queueAt, h.1]; decide
      · rw [queueAt, h.1]; decide
      · rw [h.2.2.2.2.2.1]; decide⟩

/-! ## Payload accessors -/

open MessageData

/-- The six accessors whose assertion names their own tag fail on every payload
with another tag. -/
theorem accessor_mismatch_asserts (d : MessageData) :
    (d.mType ≠ .MESSAGE_TYPE_INT → d.GetInt = .assertFailed) ∧
      (d.mType ≠ .MESSAGE_TYPE_FLOAT → d.GetFloat = .assertFailed) ∧
      (d.mType ≠ .MESSAGE_TYPE_CHAR → d.GetChar = .assertFailed) ∧
      (d.mType ≠ .MESSAGE_TYPE_BOOL → d.GetBool = .assertFailed) ∧
      (d.mType ≠ .MESSAGE_TYPE_OBJECT → d.GetObject = .assertFailed) ∧
      (d.mType ≠ .MESSAGE_TYPE_VEC2 → d.GetVector2f = .assertFailed) := by
  refine ⟨?_, ?_, ?_, ?_, ?_, ?_⟩ <;> intro h <;>
    simp [GetInt, GetFloat, GetChar, GetBool, GetObject, GetVector2f, h]

/-- No accessor returns a value on the payload of the constructor without
arguments: all eight stop at their assertion. -/
theorem accessor_default_asserts :
    MessageData.default.GetInt = .assertFailed ∧
      MessageData.default.GetFloat = .assertFailed ∧
      MessageData.default.GetChar = .assertFailed ∧
      MessageData.default.GetBool = .assertFailed ∧
      MessageData.default.GetObject = .assertFailed ∧
      MessageData.default.GetVector2f = .assertFailed ∧
      MessageData.default.GetVector3f = .assertFailed ∧
      MessageData.default.GetVector4f = .assertFailed := by
  decide

/-- C4 (payload round-trip), as the code has it: a value of kind Int, Float,
Char, Bool, ObjectHandle or Vec2 is read back unchanged through the accessor of
its kind, while `GetVector3f` on a payload made from a `Vector3f` and
`GetVector4f` on a payload made from a `Vector4f` stop at their assertion and
return nothing. -/
theorem round_trip_as_coded :
    (∀ v : Int, (ofInt v).GetInt = .ok v) ∧
      (∀ v : CFloat, (ofFloat v).GetFloat = .ok v) ∧
      (∀ v : Nat, (ofChar v).GetChar = .ok v) ∧
      (∀ v : Bool, (ofBool v).GetBool = .ok v) ∧
      (∀ v : Nat, (ofObject v).GetObject = .ok v) ∧
      (∀ v : Vector2f, (ofVector2f v).GetVector2f = .ok v) ∧
      (∀ v : Vector3f, (ofVector3f v).GetVector3f = .assertFailed) ∧
      (∀ v : Vector4f, (ofVector4f v).GetVector4f = .assertFailed) := by
  refine ⟨?_, ?_, ?_, ?_, ?_, ?_, ?_, ?_⟩ <;> intro v <;> rfl

/-- C5 (TypeMismatch), as the code has it: on a payload made from a `Vector2f`,
whose tag is Vec2, the Vec3 and Vec4 accessors do not stop at their assertion;
they go on to read components that were never written, so the call is
undefined instead of an explicit failure. -/
theorem vec2_payload_passes_vec3_vec4_assert (v : Vector2f) :
    (ofVector2f v).mType = .MESSAGE_TYPE_VEC2 ∧
      (ofVector2f v).GetVector3f = .undefined ∧
      (ofVector2f v).GetVector4f = .undefined ∧
      (ofVector2f v).GetVector3f.isExplicitFailure = false ∧
      (ofVector2f v).GetVector4f.isExplicitFailure = false := by
  refine ⟨rfl, rfl, rfl, rfl, rfl⟩

/-! ## Receive on an empty queue -/

/-- C6, the claim as stated fails: on the queue for `a` in the first state of
the router, which is empty, `Receive` does not end in an explicit failure. -/
theorem receive_empty_not_explicit :
    Instance.queueAt "a" = [] ∧ (Instance.Receive "a").isExplicitFailure = false := by
  decide

/-- C6 (empty-queue contract), amended: when the queue for `name` holds no
message, also for a name never used, `Receive` makes no check; it calls
`front()` on the empty queue, so the call is undefined: it raises no explicit
error and returns no message. -/
theorem receive_empty_undefined (s : MessageSystem) (name : String)
    (h : s.queueAt name = []) :
    s.Receive name = .undefined ∧
      (s.Receive name).isExplicitFailure = false ∧
      (s.Receive name).isOk = false := by
  simp [Receive_of_nil s h, Outcome.isExplicitFailure, Outcome.isOk]

/-- Witness of `receive_empty_undefined`: the name `a` was registered and never
sent to. -/
theorem receive_empty_undefined_witness :
    (Instance.AddValidMessageType "a").queueAt "a" = [] ∧
    ((Instance.AddValidMessageType "a").Receive "a" = .undefined ∧
      ((Instance.AddValidMessageType "a").Receive "a").isExplicitFailure = false ∧
      ((Instance.AddValidMessageType "a").Receive "a").isOk = false) :=
  ⟨by decide, receive_empty_undefined _ "a" (by decide)⟩

/-! ## The loop of `Update` -/

namespace MessageSystem

theorem UpdateLoop_of_length_le (clock : Nat → time_point) (i : Nat) (s : MessageSystem)
    (h : s.WaitingList.length ≤ i) : UpdateLoop clock i s = s := by
  rw [UpdateLoop, dif_neg (by omega)]

/-- A property of the state that every promotion step keeps is kept by the
whole loop. -/
theorem UpdateLoop_preserves (P : MessageSystem → Prop) (clock : Nat → time_point)
    (hstep : ∀ (s : MessageSystem) (i : Nat) (h : i < s.WaitingList.length), P s →
      P { s.SendObject (s.WaitingList.get ⟨i, h⟩).msg with
          WaitingList := (s.SendObject (s.WaitingList.get ⟨i, h⟩).msg).WaitingList.eraseIdx i }) :
    ∀ (i : Nat) (s : MessageSystem), P s → P (UpdateLoop clock i s) := by
  intro i s
  induction i, s using UpdateLoop.induct clock with
  | case1 i s h hdue s1 s2 ih =>
    intro hP
    rw [UpdateLoop, dif_pos h, if_pos hdue]
    exact ih (hstep s i h hP)
  | case2 i s h hdue ih =>
    intro hP
    rw [UpdateLoop, dif_pos h, if_neg hdue]
    exact ih hP
  | case3 i s h =>
    intro hP
    rw [UpdateLoop, dif_neg h]
    exact hP

/-- One call of `Update` on a waiting list with a single entry. -/
theorem Update_singleton (s : MessageSystem) (w : WaitingMessage) (clock : Nat → time_point)
    (hw : s.WaitingList = [w]) :
    s.Update clock =
      if isDue (clock 0) w then { s.SendObject w.msg with WaitingList := [] } else s := by
  obtain ⟨mm, vt, wl, co⟩ := s
  simp only at hw
  subst hw
  unfold Update
  rw [UpdateLoop]
  by_cases hd : isDue (clock 0) w = true
  · simp [hd, SendObject, setQueue, UpdateLoop_of_length_le]
  · simp [hd, UpdateLoop_of_length_le]

/-- The test of `Update` in closed form, for a clock that has not gone back:
the entry is due when the elapsed time reaches the delay rounded up to whole
milliseconds. -/
theorem isDue_iff_ceil (now : time_point) (w : WaitingMessage) (hmono : w.timeStamp ≤ now) :
    isDue now w = true ↔ ⌈w.delayTime⌉ * 1000000 ≤ now - w.timeStamp := by
  have h0 : (0 : Int) ≤ now - w.timeStamp := Int.sub_nonneg.mpr hmono
  simp only [isDue, elapsedMilliseconds, decide_eq_true_eq]
  rw [Int.tdiv_eq_ediv h0 (by norm_num), ← Int.ceil_le, Int.le_ediv_iff_mul_le (by norm_num)]

/-! ## The delivery flag -/

theorem AllUndelivered.queueAt {s : MessageSystem} (h : AllUndelivered s) (key : String) :
    ∀ m ∈ s.queueAt key, m.IsDelivered = false := by
  intro m hm
  unfold MessageSystem.queueAt at hm
  cases hk : s.MessageMap key with
  | none => simp [hk] at hm
  | some q => exact h.1 key q hk m (by simpa [hk] using hm)

theorem AllUndelivered.setQueue {s : MessageSystem} (h : AllUndelivered s) (key : String)
    (q : MessageList) (hq : ∀ m ∈ q, m.IsDelivered = false) :
    AllUndelivered (s.setQueue key q) := by
  refine ⟨?_, h.2⟩
  intro k q1 hk m hm
  by_cases hkk : k = key
  · subst hkk
    simp only [MessageSystem.setQueue, Function.update_same, Option.some.injEq] at hk
    subst hk
    exact hq m hm
  · simp only [MessageSystem.setQueue, Function.update_noteq hkk] at hk
    exact h.1 k q1 hk m hm

theorem AllUndelivered.sendObject {s : MessageSystem} (h : AllUndelivered s) (msg : MessageObject)
    (hmsg : msg.IsDelivered = false) : AllUndelivered (s.SendObject msg) := by
  unfold SendObject
  apply h.setQueue
  intro m hm
  rcases List.mem_append.mp hm with hm | hm
  · exact h.queueAt _ m hm
  · rw [List.mem_singleton.mp hm]; exact hmsg

theorem AllUndelivered.update {s : MessageSystem} (h : AllUndelivered s)
    (clock : Nat → time_point) : AllUndelivered (s.Update clock) := by
  refine UpdateLoop_preserves AllUndelivered clock ?_ 0 s h
  intro s i hi hs
  have hw := hs.2 _ (List.get_mem s.WaitingList i hi)
  have h1 := hs.sendObject _ hw
  exact ⟨h1.1, fun w hmem => h1.2 w (List.mem_of_mem_eraseIdx hmem)⟩

/-- Every state the router can be in holds only messages that report not
delivered. -/
theorem Reachable.allUndelivered {s : MessageSystem} (h : Reachable s) : AllUndelivered s := by
  induction h with
  | instance_ => exact ⟨fun _ _ hk => by simp [Instance] at hk, fun _ hw => by simp [Instance] at hw⟩
  | addValidMessageType n _ ih => exact ih
  | @send s v n _ ih =>
    by_cases hv : n ∈ s.ValidMessageTypes
    · rw [Send_of_valid s v hv]
      apply ih.setQueue
      intro m hm
      rcases List.mem_append.mp hm with hm | hm
      · exact ih.queueAt _ m hm
      · rw [List.mem_singleton.mp hm]; rfl
    · rw [Send_of_not_valid s v hv]; exact ih
  | @delayedSend s v n d now _ ih =>
    unfold DelayedSend
    split
    · exact ih
    · refine ⟨ih.1, ?_⟩
      intro w hw
      rcases List.mem_append.mp hw with hw | hw
      · exact ih.2 w hw
      · rw [List.mem_singleton.mp hw]; rfl
  | @receive s s1 n msg _ hrec ih =>
    cases hq : s.queueAt n with
    | nil => rw [Receive_of_nil s hq] at hrec; cases hrec
    | cons front rest =>
      rw [Receive_of_cons s n front rest hq] at hrec
      injection hrec with hrec
      injection hrec with _ hs1
      subst hs1
      apply ih.setQueue
      intro m hm
      exact ih.queueAt n m (by rw [hq]; exact List.mem_cons_of_mem _ hm)
  | isMessageListEmpty n _ ih => exact ih.setQueue _ _ (ih.queueAt _)
  | update clock _ ih => exact ih.update clock

end MessageSystem

/-- C7 (delivery flag): a message constructed from a name and a payload reports
not delivered; in every state the router can be in, so also after `Send` and
after a promotion by `Update`, every message in a queue or in the waiting list
reports not delivered; and on a non-empty queue `Receive` returns the oldest
message with its name and payload and with the flag set. -/
theorem delivery_flag :
    (∀ (name : MessageName) (data : MessageData),
        (MessageObject.new name data).IsDelivered = false) ∧
      (∀ s : MessageSystem, Reachable s →
        AllUndelivered s ∧ ∀ (name : String), ∀ m ∈ s.queueAt name, m.IsDelivered = false) ∧
      (∀ (s : MessageSystem) (name : String) (front : MessageObject) (rest : MessageList),
        s.queueAt name = front :: rest →
          ∃ m s1, s.Receive name = .ok (m, s1) ∧ m.IsDelivered = true ∧
            m.GetName = front.GetName ∧ m.mData = front.mData ∧ s1.queueAt name = rest) := by
  refine ⟨fun _ _ => rfl, fun s hs => ⟨hs.allUndelivered, hs.allUndelivered.queueAt⟩, ?_⟩
  intro s name front rest h
  exact ⟨_, _, Receive_of_cons s name front rest h, rfl, rfl, rfl, by simp⟩

/-- Witness of `delivery_flag`: a message promoted by `Update` sits in its queue
as not delivered, and `Receive` returns it as delivered. -/
theorem delivery_flag_witness :
    (∀ m ∈ (((Instance.AddValidMessageType "a").DelayedSend (MessageData.ofInt 1) "a" 50 0).Update
        (fun _ => 50000000)).queueAt "a", m.IsDelivered = false) ∧
    ((((Instance.AddValidMessageType "a").DelayedSend (MessageData.ofInt 1) "a" 50 0).Update
        (fun _ => 50000000)).queueAt "a" = MessageObject.new "a" (MessageData.ofInt 1) :: [] ∧
      ∃ m s1, (((Instance.AddValidMessageType "a").DelayedSend (MessageData.ofInt 1) "a" 50 0).Update
        (fun _ => 50000000)).Receive "a" = .ok (m, s1) ∧ m.IsDelivered = true ∧
        m.GetName = (MessageObject.new "a" (MessageData.ofInt 1)).GetName ∧
        m.mData = (MessageObject.new "a" (MessageData.ofInt 1)).mData ∧ s1.queueAt "a" = []) :=
  ⟨(delivery_flag.2.1 _
      (Reachable.update _ (Reachable.delayedSend _ _ _ _
        (Reachable.addValidMessageType _ Reachable.instance_)))).2 "a",
    by decide!,
    delivery_flag.2.2 _ "a" _ [] (by decide!)⟩

/-! ## Delayed delivery -/

/-- C8 (delayed promotion timing): for a registered name, a payload `v` and a
delay of `d` whole milliseconds, from an empty waiting list and an empty queue
for the name, `DelayedSend` at the time `t0` followed by one `Update` at a time
`t` not before `t0`: when less than `d` milliseconds have elapsed the queue
stays empty and the entry stays in the waiting list; when at least `d`
milliseconds have elapsed the queue holds exactly the one message carrying `v`
and the waiting list is empty.  Times are in nanoseconds. -/
theorem delayed_promotion_timing (s : MessageSystem) (name : String) (v : MessageData)
    (d : Nat) (t0 t : time_point) (hreg : name ∈ s.ValidMessageTypes)
    (hwait : s.WaitingList = []) (hqueue : s.queueAt name = []) (hmono : t0 ≤ t) :
    (t - t0 < (d : Int) * 1000000 →
        ((s.DelayedSend v name d t0).Tick t).queueAt name = [] ∧
        ((s.DelayedSend v name d t0).Tick t).WaitingList =
          [{ msg := MessageObject.new name v, timeStamp := t0, delayTime := d }]) ∧
      ((d : Int) * 1000000 ≤ t - t0 →
        ((s.DelayedSend v name d t0).Tick t).queueAt name = [MessageObject.new name v] ∧
        ((s.DelayedSend v name d t0).Tick t).WaitingList = []) := by
  have hs1 : (s.DelayedSend v name d t0).WaitingList =
      [{ msg := MessageObject.new name v, timeStamp := t0, delayTime := d }] := by
    simp [DelayedSend, hreg, hwait]
  have hq1 : (s.DelayedSend v name d t0).queueAt name = [] := by
    simpa [DelayedSend, hreg, queueAt] using hqueue
  have hdue := isDue_iff_ceil t
    { msg := MessageObject.new name v, timeStamp := t0, delayTime := (d : ℚ) } hmono
  simp only [Int.ceil_natCast] at hdue
  have hT := Update_singleton (s.DelayedSend v name d t0) _ (fun _ => t) hs1
  constructor
  · intro hlt
    have hnd : ¬ isDue t
        { msg := MessageObject.new name v, timeStamp := t0, delayTime := (d : ℚ) } = true := by
      rw [hdue]; exact not_le.mpr hlt
    rw [Tick, hT, if_neg hnd]
    exact ⟨hq1, hs1⟩
  · intro hle
    rw [Tick, hT, if_pos (hdue.mpr hle)]
    refine ⟨?_, rfl⟩
    show ((s.DelayedSend v name d t0).SendObject (MessageObject.new name v)).queueAt name = _
    simp [SendObject, MessageObject.GetName, MessageObject.new, hq1]

/-- Witness of `delayed_promotion_timing`: a delay of 50 ms, the entry sent at
time 0 and the tick at 49.999999 ms or at 50 ms. -/
theorem delayed_promotion_timing_witness :
    "a" ∈ (Instance.AddValidMessageType "a").ValidMessageTypes ∧
    (Instance.AddValidMessageType "a").WaitingList = [] ∧
    (Instance.AddValidMessageType "a").queueAt "a" = [] ∧
    (((Instance.AddValidMessageType "a").DelayedSend (MessageData.ofInt 1) "a" (50 : Nat) 0).Tick
        49999999).queueAt "a" = [] ∧
    (((Instance.AddValidMessageType "a").DelayedSend (MessageData.ofInt 1) "a" (50 : Nat) 0).Tick
        50000000).queueAt "a" = [MessageObject.new "a" (MessageData.ofInt 1)] ∧
    (((Instance.AddValidMessageType "a").DelayedSend (MessageData.ofInt 1) "a" (50 : Nat) 0).Tick
        50000000).WaitingList = [] :=
  ⟨by decide, by decide, by decide,
    ((delayed_promotion_timing (Instance.AddValidMessageType "a") "a" (MessageData.ofInt 1) 50 0
      49999999 (by decide) (by decide) (by decide) (by decide)).1 (by decide)).1,
    ((delayed_promotion_timing (Instance.AddValidMessageType "a") "a" (MessageData.ofInt 1) 50 0
      50000000 (by decide) (by decide) (by decide) (by decide)).2 (by decide)).1,
    ((delayed_promotion_timing (Instance.AddValidMessageType "a") "a" (MessageData.ofInt 1) 50 0
      50000000 (by decide) (by decide) (by decide) (by decide)).2 (by decide)).2⟩

/-- C9 (no skipped promotion), the code at the failing input: two entries
for `a`, both sent at time 0 with a delay of 5 ms, and one `Update` at 6 ms.
Both are due, the first is promoted, and the second is still in the waiting
list after the call although it is due at that time. -/
theorem update_skips_entry_after_promoted :
    isDue 6000000 
        { msg := MessageObject.new "a" (MessageData.ofInt 1), timeStamp := 0, delayTime := 5 } = true ∧
      isDue 6000000 
        { msg := MessageObject.new "a" (MessageData.ofInt 2), timeStamp := 0, delayTime := 5 } = true ∧
      ((((Instance.AddValidMessageType "a").DelayedSend (MessageData.ofInt 1) "a" 5 0).DelayedSend
        (MessageData.ofInt 2) "a" 5 0).Tick 6000000).WaitingList =
        [{ msg := MessageObject.new "a" (MessageData.ofInt 2), timeStamp := 0, delayTime := 5 }] ∧
      ((((Instance.AddValidMessageType "a").DelayedSend (MessageData.ofInt 1) "a" 5 0).DelayedSend
        (MessageData.ofInt 2) "a" 5 0).Tick 6000000).queueAt "a" =
        [MessageObject.new "a" (MessageData.ofInt 1)] := by
  decide!

/-- C10, the claim as stated fails: an entry sent at time 0 with a delay of
1.5 ms and one `Update` at 1.7 ms.  The elapsed time is at least the delay, and
the entry is not promoted: the waiting list still holds it and the queue is
empty. -/
theorem fractional_delay_not_promoted :
    (3 / 2 : ℚ) ≤ (((1700000 : Int) - 0 : Int) : ℚ) / 1000000 ∧
      (((Instance.AddValidMessageType "a").DelayedSend (MessageData.ofInt 1) "a" (3 / 2) 0).Tick
        1700000).WaitingList =
        [
        { msg := MessageObject.new "a" (MessageData.ofInt 1), timeStamp := 0, delayTime := 3 / 2 }] ∧
      (((Instance.AddValidMessageType "a").DelayedSend (MessageData.ofInt 1) "a" (3 / 2) 0).Tick
        1700000).queueAt "a" = [] := by
  decide!

/-- C10 (promotion rule with fractional delays), amended: for a waiting list
holding the single entry `w`, one `Update` at the time `t` promotes the entry
(appends its message to the queue of its name and empties the waiting list) if
and only if the elapsed time in whole milliseconds, rounded toward zero, is at
least the delay; otherwise the state is unchanged.  For `t` not before the
submission time this is: the elapsed time is at least the delay rounded up to
whole milliseconds. -/
theorem promotion_rule_whole_milliseconds (s : MessageSystem) (w : WaitingMessage)
    (t : time_point) (hw : s.WaitingList = [w]) :
    ((s.Tick t).WaitingList = [] ↔
        w.delayTime ≤ ((Int.tdiv (t - w.timeStamp) 1000000 : Int) : ℚ)) ∧
      (w.delayTime ≤ ((Int.tdiv (t - w.timeStamp) 1000000 : Int) : ℚ) →
        (s.Tick t).queueAt w.msg.GetName = s.queueAt w.msg.GetName ++ [w.msg]) ∧
      (¬ w.delayTime ≤ ((Int.tdiv (t - w.timeStamp) 1000000 : Int) : ℚ) → s.Tick t = s) ∧
      (w.timeStamp ≤ t →
        ((s.Tick t).WaitingList = [] ↔ ⌈w.delayTime⌉ * 1000000 ≤ t - w.timeStamp)) := by
  have hT := Update_singleton s w (fun _ => t) hw
  have hdue : isDue t w = true ↔
      w.delayTime ≤ ((Int.tdiv (t - w.timeStamp) 1000000 : Int) : ℚ) := by
    simp [isDue, elapsedMilliseconds]
  have hiff : (s.Tick t).WaitingList = [] ↔ isDue t w = true := by
    rw [Tick, hT]
    by_cases hd : isDue t w = true
    · simp [hd]
    · simp [hd, hw]
  refine ⟨hiff.trans hdue, ?_, ?_, ?_⟩
  · intro h
    rw [Tick, hT, if_pos (hdue.mpr h)]
    show (s.SendObject w.msg).queueAt w.msg.GetName = _
    simp [SendObject]
  · intro h
    rw [Tick, hT, if_neg (fun hd => h (hdue.mp hd))]
  · intro hmono
    exact hiff.trans (isDue_iff_ceil t w hmono)

/-- Witness of `promotion_rule_whole_milliseconds`: a delay of 1.5 ms is reached
at the tick at 2 ms, the first at which two whole milliseconds have elapsed. -/
theorem promotion_rule_whole_milliseconds_witness :
    ((Instance.AddValidMessageType "a").DelayedSend (MessageData.ofInt 1) "a" (3 / 2) 0).WaitingList =
      [{ msg := MessageObject.new "a" (MessageData.ofInt 1), timeStamp := 0, delayTime := 3 / 2 }] ∧
    ((((Instance.AddValidMessageType "a").DelayedSend (MessageData.ofInt 1) "a" (3 / 2) 0).Tick
        2000000).WaitingList = [] ↔
      (3 / 2 : ℚ) ≤ ((Int.tdiv (2000000 - 0) 1000000 : Int) : ℚ)) :=
  ⟨by decide!,
    (promotion_rule_whole_milliseconds
      ((Instance.AddValidMessageType "a").DelayedSend (MessageData.ofInt 1) "a" (3 / 2) 0)
      { msg := MessageObject.new "a" (MessageData.ofInt 1), timeStamp := 0, delayTime := 3 / 2 }
      2000000 (by decide!)).1⟩

/-! ## The loop of `Update` in closed form -/

namespace MessageSystem


theorem ext_fields {a b : MessageSystem} (h1 : a.MessageMap = b.MessageMap)
    (h2 : a.ValidMessageTypes = b.ValidMessageTypes) (h3 : a.WaitingList = b.WaitingList)
    (h4 : a.cout = b.cout) : a = b := by
  cases a; cases b; simp_all

@[simp] theorem SendObject_WaitingList (s : MessageSystem) (m : MessageObject) :
    (s.SendObject m).WaitingList = s.WaitingList := rfl

@[simp] theorem SendObject_ValidMessageTypes (s : MessageSystem) (m : MessageObject) :
    (s.SendObject m).ValidMessageTypes = s.ValidMessageTypes := rfl

@[simp] theorem SendObject_cout (s : MessageSystem) (m : MessageObject) :
    (s.SendObject m).cout = s.cout := rfl

@[simp] theorem sendObjects_nil (s : MessageSystem) : s.sendObjects [] = s := rfl

@[simp] theorem sendObjects_cons (s : MessageSystem) (m : MessageObject) (ms : List MessageObject) :
    s.sendObjects (m :: ms) = (s.SendObject m).sendObjects ms := rfl

@[simp] theorem sendObjects_WaitingList (s : MessageSystem) (ms : List MessageObject) :
    (s.sendObjects ms).WaitingList = s.WaitingList := by
  induction ms generalizing s with
  | nil => rfl
  | cons m ms ih => simp [ih]

@[simp] theorem sendObjects_ValidMessageTypes (s : MessageSystem) (ms : List MessageObject) :
    (s.sendObjects ms).ValidMessageTypes = s.ValidMessageTypes := by
  induction ms generalizing s with
  | nil => rfl
  | cons m ms ih => simp [ih]

@[simp] theorem sendObjects_cout (s : MessageSystem) (ms : List MessageObject) :
    (s.sendObjects ms).cout = s.cout := by
  induction ms generalizing s with
  | nil => rfl
  | cons m ms ih => simp [ih]

/-- The queue map after a sequence of sends depends on the queue map only. -/
theorem sendObjects_MessageMap_congr (ms : List MessageObject) :
    ∀ (a b : MessageSystem), a.MessageMap = b.MessageMap →
      (a.sendObjects ms).MessageMap = (b.sendObjects ms).MessageMap := by
  induction ms with
  | nil => intro a b h; exact h
  | cons m ms ih =>
    intro a b h
    simp only [sendObjects_cons]
    apply ih
    simp [SendObject, setQueue, queueAt, h]

theorem queueAt_SendObject (s : MessageSystem) (m : MessageObject) (name : String) :
    (s.SendObject m).queueAt name = s.queueAt name ++ named name [m] := by
  by_cases h : m.GetName = name
  · subst h; simp [SendObject, named]
  · have h2 : name ≠ m.GetName := fun e => h e.symm
    simp [SendObject, named, h, queueAt_setQueue_other s _ h2]

theorem queueAt_sendObjects (ms : List MessageObject) (name : String) :
    ∀ s : MessageSystem, (s.sendObjects ms).queueAt name = s.queueAt name ++ named name ms := by
  induction ms with
  | nil => intro s; simp [named]
  | cons m ms ih =>
    intro s
    rw [sendObjects_cons, ih, queueAt_SendObject]
    simp [named, List.filter_cons]
    split <;> simp

theorem get_append_cons_length (pre : List WaitingMessage) (w : WaitingMessage)
    (tl : List WaitingMessage) (h : pre.length < (pre ++ w :: tl).length) :
    (pre ++ w :: tl).get ⟨pre.length, h⟩ = w := by
  induction pre with
  | nil => rfl
  | cons a pre ih => exact ih (by simp)

theorem eraseIdx_append_cons_length (pre : List WaitingMessage) (w : WaitingMessage)
    (tl : List WaitingMessage) : (pre ++ w :: tl).eraseIdx pre.length = pre ++ tl := by
  induction pre with
  | nil => rfl
  | cons a pre ih => simp [List.eraseIdx, ih]

/-- One iteration of the loop at an entry that is due. -/
theorem UpdateLoop_step_due (clock : Nat → time_point) (pre : List WaitingMessage)
    (w : WaitingMessage) (tl : List WaitingMessage) (s : MessageSystem)
    (hs : s.WaitingList = pre ++ w :: tl) (hd : isDue (clock pre.length) w = true) :
    UpdateLoop clock pre.length s =
      UpdateLoop clock (pre.length + 1) { s.SendObject w.msg with WaitingList := pre ++ tl } := by
  obtain ⟨mm, vt, wl, co⟩ := s
  simp only at hs
  subst hs
  have hlen : pre.length < (pre ++ w :: tl).length := by simp
  rw [UpdateLoop, dif_pos hlen]
  simp only [get_append_cons_length, hd, if_true, SendObject_WaitingList,
    eraseIdx_append_cons_length]

/-- One iteration of the loop at an entry that is not due. -/
theorem UpdateLoop_step_not_due (clock : Nat → time_point) (pre : List WaitingMessage)
    (w : WaitingMessage) (tl : List WaitingMessage) (s : MessageSystem)
    (hs : s.WaitingList = pre ++ w :: tl) (hd : ¬ isDue (clock pre.length) w = true) :
    UpdateLoop clock pre.length s = UpdateLoop clock (pre.length + 1) s := by
  obtain ⟨mm, vt, wl, co⟩ := s
  simp only at hs
  subst hs
  have hlen : pre.length < (pre ++ w :: tl).length := by simp
  rw [UpdateLoop, dif_pos hlen]
  simp only [get_append_cons_length, hd]
  rfl

/-- The loop of `Update`, entered at the index `pre.length` with the waiting
list `pre ++ l` and a clock that reads `now` throughout, sends the entries
`(scanWaiting now l).1` in their order and leaves `pre ++ (scanWaiting now l).2`. -/
theorem UpdateLoop_eq_scanWaiting (now : time_point) (l : List WaitingMessage) :
    ∀ (pre : List WaitingMessage) (s : MessageSystem), s.WaitingList = pre ++ l →
      UpdateLoop (fun _ => now) pre.length s =
        { s.sendObjects ((scanWaiting now l).1.map (fun w => w.msg)) with
          WaitingList := pre ++ (scanWaiting now l).2 } := by
  induction l using scanWaiting.induct now with
  | case1 =>
    intro pre s hs
    rw [UpdateLoop_of_length_le (fun _ => now) pre.length s (by simp [hs])]
    apply ext_fields <;> simp [scanWaiting, hs]
  | case2 w hd =>
    intro pre s hs
    rw [UpdateLoop_step_due (fun _ => now) pre w [] s hs hd, UpdateLoop_of_length_le (fun _ => now) (pre.length + 1) _ (by simp)]
    apply ext_fields <;> simp [scanWaiting, hd]
  | case3 w hd =>
    intro pre s hs
    rw [UpdateLoop_step_not_due (fun _ => now) pre w [] s hs hd,
      UpdateLoop_of_length_le (fun _ => now) (pre.length + 1) s (by simp [hs])]
    apply ext_fields <;> simp [scanWaiting, hd, hs]
  | case4 w r rest hd ih =>
    intro pre s hs
    rw [UpdateLoop_step_due (fun _ => now) pre w (r :: rest) s hs hd]
    have h := ih (pre ++ [r]) { s.SendObject w.msg with WaitingList := pre ++ r :: rest }
      (by simp)
    simp only [List.length_append, List.length_singleton] at h
    rw [h]
    apply ext_fields
    · simp only [scanWaiting, if_pos hd, List.map_cons, sendObjects_cons]
      exact sendObjects_MessageMap_congr _ _ _ rfl
    · simp
    · simp [scanWaiting, hd]
    · simp
  | case5 w r rest hd ih =>
    intro pre s hs
    rw [UpdateLoop_step_not_due (fun _ => now) pre w (r :: rest) s hs hd]
    have h := ih (pre ++ [w]) s (by simp [hs])
    simp only [List.length_append, List.length_singleton] at h
    rw [h]
    apply ext_fields <;> simp [scanWaiting, hd]

/-- One `Update` with the clock at `now` throughout, in closed form. -/
theorem Tick_eq_scanWaiting (s : MessageSystem) (now : time_point) :
    s.Tick now =
      { s.sendObjects ((scanWaiting now s.WaitingList).1.map (fun w => w.msg)) with
        WaitingList := (scanWaiting now s.WaitingList).2 } :=
  UpdateLoop_eq_scanWaiting now s.WaitingList [] s rfl

theorem Tick_WaitingList (s : MessageSystem) (now : time_point) :
    (s.Tick now).WaitingList = (scanWaiting now s.WaitingList).2 := by
  rw [Tick_eq_scanWaiting]

theorem Tick_queueAt (s : MessageSystem) (now : time_point) (name : String) :
    (s.Tick now).queueAt name =
      s.queueAt name ++ named name ((scanWaiting now s.WaitingList).1.map (fun w => w.msg)) := by
  rw [Tick_eq_scanWaiting, ← queueAt_sendObjects]
  rfl

/-! ## What one pass sends and what it leaves -/

theorem scanWaiting_fst_sublist (now : time_point) (l : List WaitingMessage) :
    (scanWaiting now l).1.Sublist l := by
  induction l using scanWaiting.induct now with
  | case1 => simp [scanWaiting]
  | case2 w hd => simp [scanWaiting, hd]
  | case3 w hd => simp [scanWaiting, hd]
  | case4 w r rest hd ih =>
    simp only [scanWaiting, if_pos hd]
    exact (ih.cons r).cons₂ w
  | case5 w r rest hd ih =>
    simp only [scanWaiting, if_neg hd]
    exact ih.cons w

theorem scanWaiting_snd_sublist (now : time_point) (l : List WaitingMessage) :
    (scanWaiting now l).2.Sublist l := by
  induction l using scanWaiting.induct now with
  | case1 => simp [scanWaiting]
  | case2 w hd => simp [scanWaiting, hd]
  | case3 w hd => simp [scanWaiting, hd]
  | case4 w r rest hd ih =>
    simp only [scanWaiting, if_pos hd]
    exact (ih.cons₂ r).cons w
  | case5 w r rest hd ih =>
    simp only [scanWaiting, if_neg hd]
    exact ih.cons₂ w

theorem scanWaiting_perm (now : time_point) (l : List WaitingMessage) :
    l.Perm ((scanWaiting now l).1 ++ (scanWaiting now l).2) := by
  induction l using scanWaiting.induct now with
  | case1 => simp [scanWaiting]
  | case2 w hd => simp [scanWaiting, hd]
  | case3 w hd => simp [scanWaiting, hd]
  | case4 w r rest hd ih =>
    simp only [scanWaiting, if_pos hd, List.cons_append]
    exact List.Perm.cons w ((List.Perm.cons r ih).trans List.perm_middle.symm)
  | case5 w r rest hd ih =>
    simp only [scanWaiting, if_neg hd]
    exact (List.Perm.cons w ih).trans List.perm_middle.symm

theorem scanWaiting_fst_due (now : time_point) (l : List WaitingMessage) :
    ∀ w ∈ (scanWaiting now l).1, isDue now w = true := by
  induction l using scanWaiting.induct now with
  | case1 => simp [scanWaiting]
  | case2 w hd => simp [scanWaiting, hd]
  | case3 w hd => simp [scanWaiting, hd]
  | case4 w r rest hd ih =>
    simp only [scanWaiting, if_pos hd, List.mem_cons]
    rintro x (rfl | hx)
    · exact hd
    · exact ih x hx
  | case5 w r rest hd ih =>
    simp only [scanWaiting, if_neg hd]
    exact ih

theorem scanWaiting_snd_not_due (now : time_point) (l : List WaitingMessage) :
    (l.filter (fun w => !isDue now w)).Sublist (scanWaiting now l).2 := by
  induction l using scanWaiting.induct now with
  | case1 => simp [scanWaiting]
  | case2 w hd => simp [scanWaiting, hd]
  | case3 w hd => simp [scanWaiting, hd]
  | case4 w r rest hd ih =>
    simp only [scanWaiting, if_pos hd, List.filter_cons, hd, Bool.not_true]
    simp only [Bool.false_eq_true, if_false]
    split
    · exact ih.cons₂ r
    · exact ih.cons r
  | case5 w r rest hd ih =>
    have hd2 : isDue now w = false := by simpa using hd
    simp only [scanWaiting, if_neg hd]
    rw [List.filter_cons_of_pos (by simp [hd2])]
    exact ih.cons₂ w

/-- When no two entries next to each other are both due, the pass sends all
due entries and leaves all others. -/
theorem scanWaiting_of_no_adjacent_due (now : time_point) (l : List WaitingMessage)
    (h : List.Chain' (fun a b => ¬ (isDue now a = true ∧ isDue now b = true)) l) :
    scanWaiting now l =
      (l.filter (fun w => isDue now w), l.filter (fun w => !isDue now w)) := by
  induction l using scanWaiting.induct now with
  | case1 => simp [scanWaiting]
  | case2 w hd => simp [scanWaiting, hd]
  | case3 w hd => simp [scanWaiting, hd]
  | case4 w r rest hd ih =>
    have hr : isDue now r = false := by
      have := (List.chain'_cons.mp h).1
      simpa [hd] using this
    have hrest := ih (List.chain'_cons.mp h).2.tail
    simp [scanWaiting, hd, hr, hrest]
  | case5 w r rest hd ih =>
    have hd2 : isDue now w = false := by simpa using hd
    have hrest := ih (List.chain'_cons.mp h).2
    rw [scanWaiting, if_neg hd, hrest]
    simp [hd2]

/-- The first due entry is sent, and the entries before it are left. -/
theorem scanWaiting_first_due (now : time_point) (pre : List WaitingMessage) :
    ∀ (w : WaitingMessage) (rest : List WaitingMessage),
      (∀ x ∈ pre, isDue now x = false) → isDue now w = true →
      ∃ more kept, kept.Sublist rest ∧
        scanWaiting now (pre ++ w :: rest) = (w :: more, pre ++ kept) := by
  induction pre with
  | nil =>
    intro w rest _ hd
    cases rest with
    | nil => exact ⟨[], [], List.Sublist.refl _, by simp [scanWaiting, hd]⟩
    | cons r rest =>
      exact ⟨(scanWaiting now rest).1, r :: (scanWaiting now rest).2,
        (scanWaiting_snd_sublist now rest).cons₂ r, by simp [scanWaiting, hd]⟩
  | cons a pre ih =>
    intro w rest hpre hd
    have ha : ¬ isDue now a = true := by simp [hpre a (List.mem_cons_self a pre)]
    obtain ⟨more, kept, hk, he⟩ := ih w rest (fun x hx => hpre x (List.mem_cons_of_mem a hx)) hd
    refine ⟨more, kept, hk, ?_⟩
    cases hp : pre ++ w :: rest with
    | nil => simp at hp
    | cons b tl =>
      rw [List.cons_append, hp, scanWaiting, if_neg ha, ← hp, he]
      simp

end MessageSystem

/-! ## Registration, queries and delayed sends -/

/-- C11 (SendDelayed effect and frame): for a registered name, `DelayedSend` at
the clock reading `t0` appends exactly one entry at the end of the waiting
list, holding the message named `name` with the payload `v` and the flag not
delivered, the time stamp `t0` and the delay `d`; the earlier entries stay as
they were and the queue map, like the registry, is unchanged. -/
theorem delayed_send_effect (s : MessageSystem) (name : String) (v : MessageData) (d : ℚ)
    (t0 : time_point) (hreg : name ∈ s.ValidMessageTypes) :
    (s.DelayedSend v name d t0).WaitingList =
        s.WaitingList ++
          [{ msg := { mName := name, mData := v, isDelivered := false }, timeStamp := t0,
             delayTime := d }] ∧
      (s.DelayedSend v name d t0).MessageMap = s.MessageMap ∧
      (∀ key, (s.DelayedSend v name d t0).queueAt key = s.queueAt key) ∧
      (s.DelayedSend v name d t0).ValidMessageTypes = s.ValidMessageTypes ∧
      (s.DelayedSend v name d t0).cout = s.cout := by
  simp [DelayedSend, hreg, MessageObject.new, queueAt]

/-- Witness of `delayed_send_effect`: a second delayed send under `a`. -/
theorem delayed_send_effect_witness :
    "a" ∈ ((Instance.AddValidMessageType "a").DelayedSend (MessageData.ofInt 1) "a" 5
      0).ValidMessageTypes ∧
    (((Instance.AddValidMessageType "a").DelayedSend (MessageData.ofInt 1) "a" 5 0).DelayedSend
        (MessageData.ofBool true) "a" (3 / 2) 7).WaitingList =
      ((Instance.AddValidMessageType "a").DelayedSend (MessageData.ofInt 1) "a" 5 0).WaitingList ++
        [{ msg := { mName := "a", mData := MessageData.ofBool true, isDelivered := false },
           timeStamp := 7, delayTime := 3 / 2 }] :=
  ⟨by decide, (delayed_send_effect _ "a" (MessageData.ofBool true) (3 / 2) 7 (by decide)).1⟩

/-- C12 (IsEmpty): `IsMessageListEmpty` answers true exactly when the queue for
the name holds no message, answers true for a name the map has never held, and
leaves every queue with the messages it had (registry, waiting list and output
too); a later `IsMessageListEmpty`, `Send` or `Receive` gives the same answer,
the same message and the same queues as without the query. -/
theorem is_empty_query (s : MessageSystem) (name : String) :
    ((s.IsMessageListEmpty name).1 = true ↔ s.queueAt name = []) ∧
      (s.MessageMap name = none → (s.IsMessageListEmpty name).1 = true) ∧
      (∀ key, (s.IsMessageListEmpty name).2.queueAt key = s.queueAt key) ∧
      (s.IsMessageListEmpty name).2.ValidMessageTypes = s.ValidMessageTypes ∧
      (s.IsMessageListEmpty name).2.WaitingList = s.WaitingList ∧
      (s.IsMessageListEmpty name).2.cout = s.cout ∧
      (∀ key, ((s.IsMessageListEmpty name).2.IsMessageListEmpty key).1 =
        (s.IsMessageListEmpty key).1) ∧
      (∀ v key other, (((s.IsMessageListEmpty name).2.Send v key).queueAt other =
        (s.Send v key).queueAt other)) ∧
      (∀ key, s.queueAt key = [] →
        (s.IsMessageListEmpty name).2.Receive key = .undefined ∧ s.Receive key = .undefined) ∧
      (∀ key front rest, s.queueAt key = front :: rest →
        ∃ a b, (s.IsMessageListEmpty name).2.Receive key = .ok (front.SetDeliveryStatus true, a) ∧
          s.Receive key = .ok (front.SetDeliveryStatus true, b) ∧
          ∀ other, a.queueAt other = b.queueAt other) := by
  have hq : ∀ key, (s.IsMessageListEmpty name).2.queueAt key = s.queueAt key := by
    intro key
    by_cases h : key = name
    · subst h; simp [IsMessageListEmpty]
    · simp [IsMessageListEmpty, queueAt_setQueue_other s _ h]
  have hv : (s.IsMessageListEmpty name).2.ValidMessageTypes = s.ValidMessageTypes := rfl
  refine ⟨by simp [IsMessageListEmpty, List.isEmpty_iff], ?_, hq, hv, rfl, rfl, ?_, ?_, ?_, ?_⟩
  · intro h
    simp [IsMessageListEmpty, queueAt, h]
  · intro key
    show ((s.IsMessageListEmpty name).2.queueAt key).isEmpty = (s.queueAt key).isEmpty
    rw [hq]
  · intro v key other
    by_cases hk : key ∈ s.ValidMessageTypes
    · rw [Send_of_valid _ v (by rw [hv]; exact hk), Send_of_valid s v hk]
      by_cases ho : other = key
      · subst ho; simp [hq]
      · simp [queueAt_setQueue_other _ _ ho, hq]
    · rw [Send_of_not_valid _ v (by rw [hv]; exact hk), Send_of_not_valid s v hk]
      exact hq other
  · intro key h
    exact ⟨Receive_of_nil _ (by rw [hq]; exact h), Receive_of_nil s h⟩
  · intro key front rest h
    refine ⟨_, _, Receive_of_cons _ key front rest (by rw [hq]; exact h),
      Receive_of_cons s key front rest h, ?_⟩
    intro other
    by_cases ho : other = key
    · subst ho; simp
    · simp [queueAt_setQueue_other _ _ ho, hq]

/-- Witness of `is_empty_query`: the query on the never used name `b` next to a
queue for `a` that holds one message. -/
theorem is_empty_query_witness :
    (Instance.AddValidMessageType "a").MessageMap "b" = none ∧
    ((Instance.AddValidMessageType "a").IsMessageListEmpty "b").1 = true ∧
    ((Instance.AddValidMessageType "a").Send (MessageData.ofInt 1) "a").queueAt "a" =
      MessageObject.new "a" (MessageData.ofInt 1) :: [] ∧
    ∃ a b,
      (((Instance.AddValidMessageType "a").Send (MessageData.ofInt 1) "a").IsMessageListEmpty
        "b").2.Receive "a" =
        .ok ((MessageObject.new "a" (MessageData.ofInt 1)).SetDeliveryStatus true, a) ∧
      ((Instance.AddValidMessageType "a").Send (MessageData.ofInt 1) "a").Receive "a" =
        .ok ((MessageObject.new "a" (MessageData.ofInt 1)).SetDeliveryStatus true, b) ∧
      ∀ other, a.queueAt other = b.queueAt other :=
  ⟨rfl, (is_empty_query (Instance.AddValidMessageType "a") "b").2.1 rfl, by decide,
    (is_empty_query ((Instance.AddValidMessageType "a").Send (MessageData.ofInt 1) "a")
      "b").2.2.2.2.2.2.2.2.2 "a" _ [] (by decide)⟩

/-- C13 (RegisterType): after `AddValidMessageType(name)` the name is valid and
a following `Send(v, name)` appends one message to the queue for `name`; every
name valid before is still valid and no other name becomes valid; the queue
map and the waiting list are unchanged; and registering the name a second time
gives the same set of valid names as registering it once. -/
theorem register_type (s : MessageSystem) (name : String) :
    name ∈ (s.AddValidMessageType name).ValidMessageTypes ∧
      (∀ v, ((s.AddValidMessageType name).Send v name).queueAt name =
        s.queueAt name ++ [MessageObject.new name v]) ∧
      (∀ other, other ∈ s.ValidMessageTypes →
        other ∈ (s.AddValidMessageType name).ValidMessageTypes) ∧
      (∀ other, other ∈ (s.AddValidMessageType name).ValidMessageTypes →
        other ∈ s.ValidMessageTypes ∨ other = name) ∧
      (s.AddValidMessageType name).MessageMap = s.MessageMap ∧
      (s.AddValidMessageType name).WaitingList = s.WaitingList ∧
      (∀ other, other ∈ ((s.AddValidMessageType name).AddValidMessageType name).ValidMessageTypes ↔
        other ∈ (s.AddValidMessageType name).ValidMessageTypes) := by
  have hmem : name ∈ (s.AddValidMessageType name).ValidMessageTypes := by
    simp [AddValidMessageType]
  refine ⟨hmem, ?_, ?_, ?_, rfl, rfl, ?_⟩
  · intro v
    rw [Send_of_valid _ v hmem, queueAt_setQueue_same]
    rfl
  · intro other h
    simp [AddValidMessageType, h]
  · intro other h
    simpa [AddValidMessageType] using h
  · intro other
    simp [AddValidMessageType]

/-- Witness of `register_type`: `b` is registered next to `a`; `a` stays valid
and a valid name is `a` or `b`. -/
theorem register_type_witness :
    "a" ∈ (Instance.AddValidMessageType "a").ValidMessageTypes ∧
    "a" ∈ ((Instance.AddValidMessageType "a").AddValidMessageType "b").ValidMessageTypes ∧
    ("b" ∈ ((Instance.AddValidMessageType "a").AddValidMessageType "b").ValidMessageTypes →
      "b" ∈ (Instance.AddValidMessageType "a").ValidMessageTypes ∨ "b" = "b") :=
  ⟨by decide,
    (register_type (Instance.AddValidMessageType "a") "b").2.2.1 "a" (by decide),
    (register_type (Instance.AddValidMessageType "a") "b").2.2.2.1 "b"⟩

/-! ## Tags of payloads -/

/-- C14 (Kind and IsKind): the payload of the constructor without arguments has
the tag `MESSAGE_TYPE_ERR`, is not valid and makes all eight kind predicates
false; the payload constructed from a value of a kind has the tag of that kind,
is valid, and makes the predicate of that kind true and the seven others false. -/
theorem kind_and_is_kind :
    (MessageData.default.GetMessageType = .MESSAGE_TYPE_ERR ∧
        MessageData.default.IsValid = false ∧
        MessageData.default.IsInt = false ∧ MessageData.default.IsFloat = false ∧
        MessageData.default.IsChar = false ∧ MessageData.default.IsBool = false ∧
        MessageData.default.IsObject = false ∧ MessageData.default.IsVector2f = false ∧
        MessageData.default.IsVector3f = false ∧ MessageData.default.IsVector4f = false) ∧
      (∀ v : Int, (ofInt v).GetMessageType = .MESSAGE_TYPE_INT ∧ (ofInt v).IsValid = true ∧
        (ofInt v).IsInt = true ∧ (ofInt v).IsFloat = false ∧ (ofInt v).IsChar = false ∧
        (ofInt v).IsBool = false ∧ (ofInt v).IsObject = false ∧ (ofInt v).IsVector2f = false ∧
        (ofInt v).IsVector3f = false ∧ (ofInt v).IsVector4f = false) ∧
      (∀ v : CFloat, (ofFloat v).GetMessageType = .MESSAGE_TYPE_FLOAT ∧
        (ofFloat v).IsValid = true ∧
        (ofFloat v).IsInt = false ∧ (ofFloat v).IsFloat = true ∧ (ofFloat v).IsChar = false ∧
        (ofFloat v).IsBool = false ∧ (ofFloat v).IsObject = false ∧
        (ofFloat v).IsVector2f = false ∧ (ofFloat v).IsVector3f = false ∧
        (ofFloat v).IsVector4f = false) ∧
      (∀ v : Nat, (ofChar v).GetMessageType = .MESSAGE_TYPE_CHAR ∧ (ofChar v).IsValid = true ∧
        (ofChar v).IsInt = false ∧ (ofChar v).IsFloat = false ∧ (ofChar v).IsChar = true ∧
        (ofChar v).IsBool = false ∧ (ofChar v).IsObject = false ∧ (ofChar v).IsVector2f = false ∧
        (ofChar v).IsVector3f = false ∧ (ofChar v).IsVector4f = false) ∧
      (∀ v : Bool, (ofBool v).GetMessageType = .MESSAGE_TYPE_BOOL ∧ (ofBool v).IsValid = true ∧
        (ofBool v).IsInt = false ∧ (ofBool v).IsFloat = false ∧ (ofBool v).IsChar = false ∧
        (ofBool v).IsBool = true ∧ (ofBool v).IsObject = false ∧ (ofBool v).IsVector2f = false ∧
        (ofBool v).IsVector3f = false ∧ (ofBool v).IsVector4f = false) ∧
      (∀ v : Nat, (ofObject v).GetMessageType = .MESSAGE_TYPE_OBJECT ∧
        (ofObject v).IsValid = true ∧
        (ofObject v).IsInt = false ∧ (ofObject v).IsFloat = false ∧ (ofObject v).IsChar = false ∧
        (ofObject v).IsBool = false ∧ (ofObject v).IsObject = true ∧
        (ofObject v).IsVector2f = false ∧ (ofObject v).IsVector3f = false ∧
        (ofObject v).IsVector4f = false) ∧
      (∀ v : Vector2f, (ofVector2f v).GetMessageType = .MESSAGE_TYPE_VEC2 ∧
        (ofVector2f v).IsValid = true ∧
        (ofVector2f v).IsInt = false ∧ (ofVector2f v).IsFloat = false ∧
        (ofVector2f v).IsChar = false ∧ (ofVector2f v).IsBool = false ∧
        (ofVector2f v).IsObject = false ∧ (ofVector2f v).IsVector2f = true ∧
        (ofVector2f v).IsVector3f = false ∧ (ofVector2f v).IsVector4f = false) ∧
      (∀ v : Vector3f, (ofVector3f v).GetMessageType = .MESSAGE_TYPE_VEC3 ∧
        (ofVector3f v).IsValid = true ∧
        (ofVector3f v).IsInt = false ∧ (ofVector3f v).IsFloat = false ∧
        (ofVector3f v).IsChar = false ∧ (ofVector3f v).IsBool = false ∧
        (ofVector3f v).IsObject = false ∧ (ofVector3f v).IsVector2f = false ∧
        (ofVector3f v).IsVector3f = true ∧ (ofVector3f v).IsVector4f = false) ∧
      (∀ v : Vector4f, (ofVector4f v).GetMessageType = .MESSAGE_TYPE_VEC4 ∧
        (ofVector4f v).IsValid = true ∧
        (ofVector4f v).IsInt = false ∧ (ofVector4f v).IsFloat = false ∧
        (ofVector4f v).IsChar = false ∧ (ofVector4f v).IsBool = false ∧
        (ofVector4f v).IsObject = false ∧ (ofVector4f v).IsVector2f = false ∧
        (ofVector4f v).IsVector3f = false ∧ (ofVector4f v).IsVector4f = true) := by
  refine ⟨by decide, ?_, ?_, ?_, ?_, ?_, ?_, ?_, ?_⟩ <;> intro v <;>
    exact ⟨rfl, rfl, rfl, rfl, rfl, rfl, rfl, rfl, rfl, rfl⟩

/-- C17 (vector accessors check the Vec2 tag): for every payload, `GetVector3f`
and `GetVector4f` get past their assertion if and only if the tag of the
payload is `MESSAGE_TYPE_VEC2`; so both stop at the assertion on a payload
constructed from a `Vector3f` or a `Vector4f`, and both get past it on a
payload constructed from a `Vector2f`. -/
theorem vector_accessors_check_vec2_tag :
    (∀ d : MessageData, d.GetVector3f ≠ .assertFailed ↔ d.mType = .MESSAGE_TYPE_VEC2) ∧
      (∀ d : MessageData, d.GetVector4f ≠ .assertFailed ↔ d.mType = .MESSAGE_TYPE_VEC2) ∧
      (∀ v : Vector3f, (ofVector3f v).GetVector3f = .assertFailed ∧
        (ofVector3f v).GetVector4f = .assertFailed) ∧
      (∀ v : Vector4f, (ofVector4f v).GetVector3f = .assertFailed ∧
        (ofVector4f v).GetVector4f = .assertFailed) ∧
      (∀ v : Vector2f, (ofVector2f v).GetVector3f ≠ .assertFailed ∧
        (ofVector2f v).GetVector4f ≠ .assertFailed) := by
  refine ⟨?_, ?_, fun v => ⟨rfl, rfl⟩, fun v => ⟨rfl, rfl⟩, fun v =>
    ⟨by rw [show (ofVector2f v).GetVector3f = .undefined from rfl]; simp,
      by rw [show (ofVector2f v).GetVector4f = .undefined from rfl]; simp⟩⟩
  · intro d
    unfold GetVector3f
    by_cases h : d.mType = .MESSAGE_TYPE_VEC2
    · simp only [h, if_true, iff_true]
      split <;> simp
    · simp [h]
  · intro d
    unfold GetVector4f
    by_cases h : d.mType = .MESSAGE_TYPE_VEC2
    · simp only [h, if_true, iff_true]
      split <;> simp
    · simp [h]

/-! ## One pass of `Update` over the whole waiting list -/

namespace MessageSystem

theorem named_append (name : String) (a b : List MessageObject) :
    named name (a ++ b) = named name a ++ named name b := by
  simp [named]

theorem named_perm (name : String) {a b : List MessageObject} (h : a.Perm b) :
    (named name a).Perm (named name b) :=
  h.filter _

theorem named_sublist (name : String) {a b : List MessageObject} (h : a.Sublist b) :
    (named name a).Sublist (named name b) :=
  h.filter _

end MessageSystem

/-- C16 (stable promotion order): one `Update` at the time `t` goes through the
waiting list from front to back: the entries it promotes are a sublist of the
waiting list, their messages are appended behind the messages already queued,
each to the queue of its name and in the order of the waiting list, and the
entries that remain are a sublist of the waiting list, so they keep their
relative order. -/
theorem stable_promotion_order (s : MessageSystem) (t : time_point) :
    ∃ promoted : List WaitingMessage,
      promoted.Sublist s.WaitingList ∧
      (s.Tick t).WaitingList.Sublist s.WaitingList ∧
      s.WaitingList.Perm (promoted ++ (s.Tick t).WaitingList) ∧
      (∀ name, (s.Tick t).queueAt name =
        s.queueAt name ++ named name (promoted.map (fun w => w.msg))) ∧
      (∀ name, (named name (promoted.map (fun w => w.msg))).Sublist
        (named name (s.WaitingList.map (fun w => w.msg)))) := by
  refine ⟨(scanWaiting t s.WaitingList).1, scanWaiting_fst_sublist t _, ?_, ?_,
    Tick_queueAt s t, ?_⟩
  · rw [Tick_WaitingList]; exact scanWaiting_snd_sublist t _
  · rw [Tick_WaitingList]; exact scanWaiting_perm t _
  · intro name
    exact named_sublist name ((scanWaiting_fst_sublist t _).map _)

/-- C18 (Tick conserves messages): one `Update` at the time `t` splits the
waiting list into the entries that stay and the entries whose messages are
appended, unaltered and once each, at the back of the queue of their own name;
for every name, the messages of that name in the waiting list together with
the queue of that name are the same multiset before and after; the registry is
unchanged. -/
theorem tick_conserves_messages (s : MessageSystem) (t : time_point) :
    (∃ promoted : List WaitingMessage,
        s.WaitingList.Perm (promoted ++ (s.Tick t).WaitingList) ∧
        ∀ name, (s.Tick t).queueAt name =
          s.queueAt name ++ named name (promoted.map (fun w => w.msg))) ∧
      (∀ name,
        ((s.Tick t).queueAt name ++
            named name ((s.Tick t).WaitingList.map (fun w => w.msg))).Perm
          (s.queueAt name ++ named name (s.WaitingList.map (fun w => w.msg)))) ∧
      (s.Tick t).ValidMessageTypes = s.ValidMessageTypes := by
  refine ⟨⟨(scanWaiting t s.WaitingList).1, ?_, Tick_queueAt s t⟩, ?_, ?_⟩
  · rw [Tick_WaitingList]; exact scanWaiting_perm t _
  · intro name
    rw [Tick_queueAt, Tick_WaitingList, List.append_assoc, ← named_append, ← List.map_append]
    exact List.Perm.append_left _ (named_perm name ((scanWaiting_perm t _).map _).symm)
  · rw [Tick_eq_scanWaiting]
    simp

/-- C19 (Tick never delivers early): at one `Update` at the time `t`, the
entries that fail the due test (elapsed whole milliseconds below the delay)
are all still in the waiting list afterwards, in their order, and every
message a queue gains is the message of an entry of the waiting list that
passed the due test. -/
theorem tick_never_early (s : MessageSystem) (t : time_point) :
    (s.WaitingList.filter (fun w => !isDue t w)).Sublist (s.Tick t).WaitingList ∧
      (∀ w ∈ s.WaitingList, isDue t w = false → w ∈ (s.Tick t).WaitingList) ∧
      ∃ promoted : List WaitingMessage,
        (∀ w ∈ promoted, w ∈ s.WaitingList ∧ isDue t w = true) ∧
        ∀ name, (s.Tick t).queueAt name =
          s.queueAt name ++ named name (promoted.map (fun w => w.msg)) := by
  have hsub : (s.WaitingList.filter (fun w => !isDue t w)).Sublist (s.Tick t).WaitingList := by
    rw [Tick_WaitingList]; exact scanWaiting_snd_not_due t _
  refine ⟨hsub, ?_, (scanWaiting t s.WaitingList).1, ?_, Tick_queueAt s t⟩
  · intro w hw hd
    exact hsub.subset (List.mem_filter.mpr ⟨hw, by simp [hd]⟩)
  · intro w hw
    exact ⟨(scanWaiting_fst_sublist t _).subset hw, scanWaiting_fst_due t _ w hw⟩

/-- Witness of `tick_never_early`: of two entries sent at time 0, the one with
a delay of 50 ms is not due at 6 ms and stays. -/
theorem tick_never_early_witness :
    ({ msg := MessageObject.new "a" (MessageData.ofInt 2), timeStamp := 0, delayTime := 50 } :
        WaitingMessage) ∈
      (((Instance.AddValidMessageType "a").DelayedSend (MessageData.ofInt 1) "a" 5 0).DelayedSend
        (MessageData.ofInt 2) "a" 50 0).WaitingList ∧
    isDue 6000000
      { msg := MessageObject.new "a" (MessageData.ofInt 2), timeStamp := 0, delayTime := 50 } =
      false ∧
    ({ msg := MessageObject.new "a" (MessageData.ofInt 2), timeStamp := 0, delayTime := 50 } :
        WaitingMessage) ∈
      ((((Instance.AddValidMessageType "a").DelayedSend (MessageData.ofInt 1) "a" 5 0).DelayedSend
        (MessageData.ofInt 2) "a" 50 0).Tick 6000000).WaitingList :=
  ⟨by decide!, by decide!,
    (tick_never_early _ 6000000).2.1 _ (by decide!) (by decide!)⟩

/-- C20 (Tick is complete when due entries are not adjacent): when no entry
that passes the due test is directly followed in the waiting list by another
one that passes it, one `Update` at the time `t` leaves exactly the entries
that are not due and appends the message of every due entry once, in the
order of the waiting list, to the queue of its name; and in every waiting list
the first due entry is promoted, the entries before it stay. -/
theorem tick_complete_when_not_adjacent (s : MessageSystem) (t : time_point) :
    (List.Chain' (fun a b => ¬ (isDue t a = true ∧ isDue t b = true)) s.WaitingList →
        (s.Tick t).WaitingList = s.WaitingList.filter (fun w => !isDue t w) ∧
        ∀ name, (s.Tick t).queueAt name =
          s.queueAt name ++
            named name ((s.WaitingList.filter (fun w => isDue t w)).map (fun w => w.msg))) ∧
      (∀ (pre : List WaitingMessage) (w : WaitingMessage) (rest : List WaitingMessage),
        s.WaitingList = pre ++ w :: rest → (∀ x ∈ pre, isDue t x = false) → isDue t w = true →
        ∃ (more : List MessageObject) (kept : List WaitingMessage), kept.Sublist rest ∧
          (s.Tick t).WaitingList = pre ++ kept ∧
          (s.Tick t).queueAt w.msg.GetName = s.queueAt w.msg.GetName ++ w.msg :: more) := by
  constructor
  · intro h
    have hs := scanWaiting_of_no_adjacent_due t s.WaitingList h
    refine ⟨by rw [Tick_WaitingList, hs], ?_⟩
    intro name
    rw [Tick_queueAt, hs]
  · intro pre w rest hl hpre hd
    obtain ⟨more, kept, hk, he⟩ := scanWaiting_first_due t pre w rest hpre hd
    refine ⟨named w.msg.GetName (more.map (fun x => x.msg)), kept, hk, ?_, ?_⟩
    · rw [Tick_WaitingList, hl, he]
    · rw [Tick_queueAt, hl, he]
      simp [named]

/-- Three entries sent at time 0 with the delays 5 ms, 50 ms and 5 ms: at 6 ms
no two entries next to each other are both due. -/
theorem no_adjacent_due_example :
    List.Chain' (fun a b => ¬ (isDue 6000000 a = true ∧ isDue 6000000 b = true))
      ((((Instance.AddValidMessageType "a").DelayedSend (MessageData.ofInt 1) "a" 5 0).DelayedSend
        (MessageData.ofInt 2) "a" 50 0).DelayedSend (MessageData.ofInt 3) "a" 5 0).WaitingList := by
  rw [show ((((Instance.AddValidMessageType "a").DelayedSend (MessageData.ofInt 1) "a" 5
        0).DelayedSend (MessageData.ofInt 2) "a" 50 0).DelayedSend (MessageData.ofInt 3) "a" 5
        0).WaitingList =
      [⟨MessageObject.new "a" (MessageData.ofInt 1), 0, 5⟩,
        ⟨MessageObject.new "a" (MessageData.ofInt 2), 0, 50⟩,
        ⟨MessageObject.new "a" (MessageData.ofInt 3), 0, 5⟩] from by decide!]
  exact List.Chain'.cons (by decide!) (List.Chain'.cons (by decide!) (List.chain'_singleton _))

/-- Witness of `tick_complete_when_not_adjacent`: three entries sent at time 0
with the delays 5 ms, 50 ms and 5 ms, and the tick at 6 ms; the two due entries
are not next to each other, both are promoted and the third stays. -/
theorem tick_complete_when_not_adjacent_witness :
    List.Chain' (fun a b => ¬ (isDue 6000000 a = true ∧ isDue 6000000 b = true))
      ((((Instance.AddValidMessageType "a").DelayedSend (MessageData.ofInt 1) "a" 5 0).DelayedSend
        (MessageData.ofInt 2) "a" 50 0).DelayedSend (MessageData.ofInt 3) "a" 5 0).WaitingList ∧
    (((((Instance.AddValidMessageType "a").DelayedSend (MessageData.ofInt 1) "a" 5 0).DelayedSend
        (MessageData.ofInt 2) "a" 50 0).DelayedSend (MessageData.ofInt 3) "a" 5 0).Tick
        6000000).WaitingList =
      ((((Instance.AddValidMessageType "a").DelayedSend (MessageData.ofInt 1) "a" 5 0).DelayedSend
        (MessageData.ofInt 2) "a" 50 0).DelayedSend (MessageData.ofInt 3) "a" 5
        0).WaitingList.filter (fun w => !isDue 6000000 w) :=
  ⟨no_adjacent_due_example,
    ((tick_complete_when_not_adjacent _ 6000000).1 no_adjacent_due_example).1⟩

/-- Two calls of `Update` one after the other, both at 6 ms, on four entries
that are all due: the first call promotes the first and third entry, the
second call promotes the second, and the fourth is still waiting. -/
theorem two_updates_in_sequence_leave_due_entry :
    (((((((Instance.AddValidMessageType "a").DelayedSend (MessageData.ofInt 1) "a" 5 0).DelayedSend
        (MessageData.ofInt 2) "a" 5 0).DelayedSend (MessageData.ofInt 3) "a" 5 0).DelayedSend
        (MessageData.ofInt 4) "a" 5 0).Tick 6000000).Tick 6000000).WaitingList =
      [⟨MessageObject.new "a" (MessageData.ofInt 4), 0, 5⟩] ∧
    (((((((Instance.AddValidMessageType "a").DelayedSend (MessageData.ofInt 1) "a" 5 0).DelayedSend
        (MessageData.ofInt 2) "a" 5 0).DelayedSend (MessageData.ofInt 3) "a" 5 0).DelayedSend
        (MessageData.ofInt 4) "a" 5 0).Tick 6000000).Tick 6000000).queueAt "a" =
      [MessageObject.new "a" (MessageData.ofInt 1), MessageObject.new "a" (MessageData.ofInt 3),
        MessageObject.new "a" (MessageData.ofInt 2)] := by
  decide!

end MessageBus
